import Mathlib

/-!
Verification of the Integrity Commitment & Audit Trail subsystem of the
Artha lending platform.

The ledger side of the subsystem is the Solidity contract
`backend/blockchain_scripts/LoanRegistry.sol`; it is embedded below as a
state-transition system over `RegistryState` (the contract's storage),
with each external function translated to a Lean function returning
`Except String RegistryState` — `Except.error msg` models a reverted
transaction (`require(..., msg)` failing), which leaves storage unchanged.

The Node.js wrapper scripts (`storeLoan.js`, `markRepaid.js`, `getLoan.js`)
are embedded as functions over an abstract node-response oracle, and the
digest documented in `INTEGRATION_SUMMARY.md`
(`sha256(json.dumps(loan_data, sort_keys=True))`) is embedded with an
executable SHA-256 and a model of Python's JSON serialization.
-/

namespace LoanRegistry

/-- Blockchain addresses are 160-bit words; we model them as naturals
(the zero address is `0`, explicitly allowed for an unassigned lender). -/
abbrev Address := Nat

/-- The `Loan` struct of `LoanRegistry.sol`. -/
structure Loan where
  loanId : String
  loanHash : String
  borrower : Address
  lender : Address
  isRepaid : Bool
  timestamp : Nat
  deriving Repr, DecidableEq

/-- The default value a Solidity `mapping(string => Loan)` yields for an
absent key: every field zero-initialised. -/
def emptyLoan : Loan :=
  { loanId := "", loanHash := "", borrower := 0, lender := 0,
    isRepaid := false, timestamp := 0 }

/-- The length in bytes of the UTF-8 encoding of a list of characters,
mirroring Solidity's `bytes(s).length` on the string `s`. -/
def utf8Len : List Char → Nat
  | [] => 0
  | c :: cs => utf8Len cs + c.utf8Size

/-- Byte length of a string, as Solidity's `bytes(s).length` computes it. -/
def bytesLen (s : String) : Nat := utf8Len s.data

/-- The storage of the `LoanRegistry` contract: the `loans` mapping
(total function with zero-initialised default), the `loanIds` enumeration
array, the `owner`, and the `admins` mapping. -/
structure RegistryState where
  loans : String → Loan
  loanIds : List String
  owner : Address
  admins : Address → Bool

/-- The constructor of `LoanRegistry`: `owner = msg.sender` and
`admins[msg.sender] = true`; all other storage zero-initialised. -/
def initState (deployer : Address) : RegistryState :=
  { loans := fun _ => emptyLoan
    loanIds := []
    owner := deployer
    admins := fun a => a == deployer }

/-- The view `loanExists`: `bytes(loans[loanId].loanId).length > 0`. -/
def loanExists (s : RegistryState) (loanId : String) : Bool :=
  decide (0 < bytesLen (s.loans loanId).loanId)

/-- The external function `storeLoan` of `LoanRegistry.sol`: guarded by
`onlyAdmin`, requires a non-empty id and hash and that no loan is stored
under `loanId`, then writes the struct and pushes the id onto `loanIds`.
`sender` is `msg.sender` and `blockTimestamp` is `block.timestamp`.
Events are not modelled. -/
def storeLoan (s : RegistryState) (sender : Address) (blockTimestamp : Nat)
    (loanId loanHash : String) (borrower lender : Address) :
    Except String RegistryState :=
  if s.admins sender = false then .error "Only admin can call this"
  else if bytesLen loanId = 0 then .error "Loan ID cannot be empty"
  else if bytesLen loanHash = 0 then .error "Loan hash cannot be empty"
  else if 0 < bytesLen (s.loans loanId).loanId then .error "Loan already exists"
  else .ok { s with
    loans := fun k => if k = loanId then
        { loanId := loanId, loanHash := loanHash, borrower := borrower,
          lender := lender, isRepaid := false, timestamp := blockTimestamp }
      else s.loans k
    loanIds := s.loanIds ++ [loanId] }

/-- The external function `markRepaid` of `LoanRegistry.sol`: guarded by
`onlyAdmin`, requires the loan to exist and not be repaid yet, then sets
`loans[loanId].isRepaid = true`. -/
def markRepaid (s : RegistryState) (sender : Address) (loanId : String) :
    Except String RegistryState :=
  if s.admins sender = false then .error "Only admin can call this"
  else if bytesLen (s.loans loanId).loanId = 0 then .error "Loan does not exist"
  else if (s.loans loanId).isRepaid = true then .error "Loan already marked as repaid"
  else .ok { s with
    loans := fun k => if k = loanId then
        { s.loans loanId with isRepaid := true }
      else s.loans k }

/-- The view `getLoan` of `LoanRegistry.sol`: requires existence, returns
the stored struct. -/
def getLoan (s : RegistryState) (loanId : String) : Except String Loan :=
  if bytesLen (s.loans loanId).loanId = 0 then .error "Loan does not exist"
  else .ok (s.loans loanId)

/-- The view `getLoanCount` of `LoanRegistry.sol`. -/
def getLoanCount (s : RegistryState) : Nat := s.loanIds.length

/-- The view `getLoanIdByIndex` of `LoanRegistry.sol`. -/
def getLoanIdByIndex (s : RegistryState) (index : Nat) : Except String String :=
  if h : index < s.loanIds.length then .ok (s.loanIds.get ⟨index, h⟩)
  else .error "Index out of bounds"

/-- The external function `setAdmin` of `LoanRegistry.sol` (owner only). -/
def setAdmin (s : RegistryState) (sender admin : Address) (isAdmin : Bool) :
    Except String RegistryState :=
  if (sender == s.owner) = false then .error "Only owner can call this"
  else .ok { s with admins := fun a => if a = admin then isAdmin else s.admins a }

/-- The external function `transferOwnership` of `LoanRegistry.sol`. -/
def transferOwnership (s : RegistryState) (sender newOwner : Address) :
    Except String RegistryState :=
  if (sender == s.owner) = false then .error "Only owner can call this"
  else if newOwner = 0 then .error "Invalid address"
  else .ok { s with
    owner := newOwner
    admins := fun a => if a = newOwner then true else s.admins a }

/-- Revert semantics of a transaction calling `storeLoan`: on `require`
failure storage is left unchanged. -/
def applyStoreLoan (s : RegistryState) (sender : Address) (blockTimestamp : Nat)
    (loanId loanHash : String) (borrower lender : Address) : RegistryState :=
  match storeLoan s sender blockTimestamp loanId loanHash borrower lender with
  | .ok s' => s'
  | .error _ => s

/-- Revert semantics of a transaction calling `markRepaid`. -/
def applyMarkRepaid (s : RegistryState) (sender : Address) (loanId : String) :
    RegistryState :=
  match markRepaid s sender loanId with
  | .ok s' => s'
  | .error _ => s

/-- The spec's commitment statuses for a record. -/
inductive CommitStatus where
  | NOT_COMMITTED
  | COMMITTED
  | FOLLOWUP_COMMITTED
  deriving Repr, DecidableEq

/-- The commitment status the registry storage encodes for a record id:
no stored loan is `NOT_COMMITTED`; a stored, unrepaid loan is `COMMITTED`;
a stored, repaid loan is `FOLLOWUP_COMMITTED` (repayment is the follow-up
commitment for LOAN records). -/
def statusOf (s : RegistryState) (loanId : String) : CommitStatus :=
  if loanExists s loanId = false then .NOT_COMMITTED
  else if (s.loans loanId).isRepaid then .FOLLOWUP_COMMITTED
  else .COMMITTED

/-- Linear rank of a status along the forward lifecycle. -/
def statusRank : CommitStatus → Nat
  | .NOT_COMMITTED => 0
  | .COMMITTED => 1
  | .FOLLOWUP_COMMITTED => 2

theorem utf8Len_eq_zero (l : List Char) : utf8Len l = 0 ↔ l = [] := by
  cases l with
  | nil => simp [utf8Len]
  | cons c cs =>
    simp only [utf8Len]
    constructor
    · intro h
      have := Char.utf8Size_pos c
      omega
    · intro h
      exact absurd h (by simp)

theorem bytesLen_eq_zero (s : String) : bytesLen s = 0 ↔ s = "" := by
  rw [bytesLen, utf8Len_eq_zero]
  constructor
  · intro h
    cases s with
    | mk data => simp_all [String.ext_iff]
  · intro h
    subst h
    rfl

theorem loanExists_iff (s : RegistryState) (id : String) :
    loanExists s id = true ↔ (s.loans id).loanId ≠ "" := by
  rw [loanExists]
  rw [decide_eq_true_iff, Nat.pos_iff_ne_zero]
  exact not_congr (bytesLen_eq_zero _)

/-- A concrete registry holding one committed loan: deployed by address 1,
which then stores loan `LN-1` with hash `a1b2` at block time 100. -/
def demoState : RegistryState :=
  applyStoreLoan (initState 1) 1 100 "LN-1" "a1b2" 2 3

/-- C1: when the commitment status of `record_id` is not `NOT_COMMITTED`
(a loan is already stored under that id), a second `storeLoan` call for
that id reverts with "Loan already exists", and the stored record for the
id — its `loanId`, `loanHash`, `borrower`, `lender`, `isRepaid` and
`timestamp` — is unchanged by the failed call. -/
theorem storeLoan_already_committed
    (s : RegistryState) (sender : Address) (ts : Nat)
    (loanId loanHash : String) (borrower lender : Address)
    (hadmin : s.admins sender = true)
    (hid : loanId ≠ "") (hhash : loanHash ≠ "")
    (hcommitted : statusOf s loanId ≠ .NOT_COMMITTED) :
    storeLoan s sender ts loanId loanHash borrower lender =
      .error "Loan already exists"
    ∧ applyStoreLoan s sender ts loanId loanHash borrower lender = s := by
  have hex : 0 < bytesLen (s.loans loanId).loanId := by
    by_contra hnot
    have h0 : bytesLen (s.loans loanId).loanId = 0 := by omega
    have hfalse : loanExists s loanId = false := by
      simp [loanExists, h0]
    simp [statusOf, hfalse] at hcommitted
  have hid' : bytesLen loanId ≠ 0 := fun h => hid ((bytesLen_eq_zero _).mp h)
  have hhash' : bytesLen loanHash ≠ 0 := fun h => hhash ((bytesLen_eq_zero _).mp h)
  have hmain : storeLoan s sender ts loanId loanHash borrower lender =
      .error "Loan already exists" := by
    simp [storeLoan, hadmin, hid', hhash', hex]
  exact ⟨hmain, by simp [applyStoreLoan, hmain]⟩

/-- Witness for C1 at a concrete committed registry. -/
theorem storeLoan_already_committed_witness :
    storeLoan demoState 1 200 "LN-1" "c3d4" 4 5 = .error "Loan already exists"
    ∧ applyStoreLoan demoState 1 200 "LN-1" "c3d4" 4 5 = demoState :=
  storeLoan_already_committed demoState 1 200 "LN-1" "c3d4" 4 5
    (by decide) (by decide) (by decide) (by decide)

/-- C6: called by an admin on a record whose status is `NOT_COMMITTED`
(no loan stored under the id), `markRepaid` reverts with
"Loan does not exist" and storage is unchanged; and the repayment
transition succeeds exactly when the current status is `COMMITTED`. -/
theorem markRepaid_invalid_transition
    (s : RegistryState) (sender : Address) (loanId : String)
    (hadmin : s.admins sender = true) :
    (statusOf s loanId = .NOT_COMMITTED →
      markRepaid s sender loanId = .error "Loan does not exist"
      ∧ applyMarkRepaid s sender loanId = s)
    ∧ ((∃ s', markRepaid s sender loanId = .ok s') ↔
        statusOf s loanId = .COMMITTED) := by
  by_cases h1 : bytesLen (s.loans loanId).loanId = 0
  · have hfalse : loanExists s loanId = false := by simp [loanExists, h1]
    have hmain : markRepaid s sender loanId = .error "Loan does not exist" := by
      simp [markRepaid, hadmin, h1]
    refine ⟨fun _ => ⟨hmain, by simp [applyMarkRepaid, hmain]⟩, ?_⟩
    simp [hmain, statusOf, hfalse]
  · have htrue : loanExists s loanId = true := by
      simp [loanExists, Nat.pos_iff_ne_zero, h1]
    by_cases h2 : (s.loans loanId).isRepaid = true
    · have hmain : markRepaid s sender loanId =
          .error "Loan already marked as repaid" := by
        simp [markRepaid, hadmin, h1, h2]
      refine ⟨fun hnc => ?_, ?_⟩
      · simp [statusOf, htrue, h2] at hnc
      · simp [hmain, statusOf, htrue, h2]
    · have hmain : markRepaid s sender loanId = .ok { s with
          loans := fun k => if k = loanId then
              { s.loans loanId with isRepaid := true }
            else s.loans k } := by
        simp [markRepaid, hadmin, h1, h2]
      refine ⟨fun hnc => ?_, ?_⟩
      · simp [statusOf, htrue, h2] at hnc
      · simp [hmain, statusOf, htrue, h2]

/-- Witness for C6 on the empty registry, where no loan exists. -/
theorem markRepaid_invalid_transition_witness :
    (statusOf (initState 1) "LN-1" = .NOT_COMMITTED →
      markRepaid (initState 1) 1 "LN-1" = .error "Loan does not exist"
      ∧ applyMarkRepaid (initState 1) 1 "LN-1" = initState 1)
    ∧ ((∃ s', markRepaid (initState 1) 1 "LN-1" = .ok s') ↔
        statusOf (initState 1) "LN-1" = .COMMITTED) :=
  markRepaid_invalid_transition (initState 1) 1 "LN-1" (by decide)

/-- C9: a successful `markRepaid` modifies only the `isRepaid` flag of the
targeted loan: the target's `loanId`, `loanHash`, `borrower`, `lender` and
`timestamp` are unchanged, every other key's entry is unchanged, and the
`loanIds` array, `owner` and `admins` are untouched. -/
theorem markRepaid_frame
    (s s' : RegistryState) (sender : Address) (loanId : String)
    (h : markRepaid s sender loanId = .ok s') :
    (s'.loans loanId).loanId = (s.loans loanId).loanId
    ∧ (s'.loans loanId).loanHash = (s.loans loanId).loanHash
    ∧ (s'.loans loanId).borrower = (s.loans loanId).borrower
    ∧ (s'.loans loanId).lender = (s.loans loanId).lender
    ∧ (s'.loans loanId).timestamp = (s.loans loanId).timestamp
    ∧ (s'.loans loanId).isRepaid = true
    ∧ (∀ k, k ≠ loanId → s'.loans k = s.loans k)
    ∧ s'.loanIds = s.loanIds
    ∧ s'.owner = s.owner
    ∧ s'.admins = s.admins := by
  rw [markRepaid] at h
  split at h
  · exact absurd h (by simp)
  · split at h
    · exact absurd h (by simp)
    · split at h
      · exact absurd h (by simp)
      · injection h with h
        subst h
        refine ⟨by simp, by simp, by simp, by simp, by simp, by simp,
          fun k hk => by simp [hk], rfl, rfl, rfl⟩

/-- Witness for C9: marking the demo loan repaid flips only its flag. -/
theorem markRepaid_frame_witness :
    ((applyMarkRepaid demoState 1 "LN-1").loans "LN-1").loanHash =
      (demoState.loans "LN-1").loanHash
    ∧ ((applyMarkRepaid demoState 1 "LN-1").loans "LN-1").isRepaid = true
    ∧ (applyMarkRepaid demoState 1 "LN-1").loanIds = demoState.loanIds := by
  have happ : markRepaid demoState 1 "LN-1" =
      .ok (applyMarkRepaid demoState 1 "LN-1") := by rfl
  have hfr := markRepaid_frame demoState (applyMarkRepaid demoState 1 "LN-1")
    1 "LN-1" happ
  exact ⟨hfr.2.1, hfr.2.2.2.2.2.1, hfr.2.2.2.2.2.2.2.1⟩

/-- One successfully executed external transaction against the registry
(reverted transactions leave storage unchanged and are not steps). -/
inductive Step : RegistryState → RegistryState → Prop where
  | store (s : RegistryState) (sender : Address) (ts : Nat)
      (loanId loanHash : String) (borrower lender : Address) (s' : RegistryState)
      (h : storeLoan s sender ts loanId loanHash borrower lender = .ok s') :
      Step s s'
  | repaid (s : RegistryState) (sender : Address) (loanId : String)
      (s' : RegistryState) (h : markRepaid s sender loanId = .ok s') : Step s s'
  | admin (s : RegistryState) (sender admin : Address) (isAdmin : Bool)
      (s' : RegistryState) (h : setAdmin s sender admin isAdmin = .ok s') :
      Step s s'
  | ownership (s : RegistryState) (sender newOwner : Address)
      (s' : RegistryState) (h : transferOwnership s sender newOwner = .ok s') :
      Step s s'

/-- Registry storage states reachable from deployment by external calls. -/
inductive Reachable : RegistryState → Prop where
  | init (deployer : Address) : Reachable (initState deployer)
  | step {s s' : RegistryState} (hs : Reachable s) (h : Step s s') : Reachable s'

/-- Zero or more successfully executed transactions. -/
inductive Steps : RegistryState → RegistryState → Prop where
  | refl (s : RegistryState) : Steps s s
  | tail {s s' s'' : RegistryState} (h : Steps s s') (hstep : Step s' s'') :
      Steps s s''

theorem storeLoan_ok_elim {s s' : RegistryState} {sender : Address} {ts : Nat}
    {loanId loanHash : String} {borrower lender : Address}
    (h : storeLoan s sender ts loanId loanHash borrower lender = .ok s') :
    s.admins sender = true ∧ bytesLen loanId ≠ 0 ∧ bytesLen loanHash ≠ 0
    ∧ bytesLen (s.loans loanId).loanId = 0
    ∧ s'.loans = (fun k => if k = loanId then
        { loanId := loanId, loanHash := loanHash, borrower := borrower,
          lender := lender, isRepaid := false, timestamp := ts }
      else s.loans k)
    ∧ s'.loanIds = s.loanIds ++ [loanId]
    ∧ s'.owner = s.owner ∧ s'.admins = s.admins := by
  rw [storeLoan] at h
  split at h
  · exact absurd h (by simp)
  · split at h
    · exact absurd h (by simp)
    · split at h
      · exact absurd h (by simp)
      · split at h
        · exact absurd h (by simp)
        · injection h with h
          subst h
          refine ⟨by simp_all, by assumption, by assumption, by omega,
            rfl, rfl, rfl, rfl⟩

theorem markRepaid_ok_elim {s s' : RegistryState} {sender : Address}
    {loanId : String} (h : markRepaid s sender loanId = .ok s') :
    s.admins sender = true ∧ bytesLen (s.loans loanId).loanId ≠ 0
    ∧ (s.loans loanId).isRepaid = false
    ∧ s'.loans = (fun k => if k = loanId then
        { s.loans loanId with isRepaid := true } else s.loans k)
    ∧ s'.loanIds = s.loanIds
    ∧ s'.owner = s.owner ∧ s'.admins = s.admins := by
  rw [markRepaid] at h
  split at h
  · exact absurd h (by simp)
  · split at h
    · exact absurd h (by simp)
    · split at h
      · exact absurd h (by simp)
      · injection h with h
        subst h
        refine ⟨by simp_all, by assumption, by simp_all, rfl, rfl, rfl, rfl⟩

theorem setAdmin_ok_elim {s s' : RegistryState} {sender admin : Address}
    {isAdmin : Bool} (h : setAdmin s sender admin isAdmin = .ok s') :
    s'.loans = s.loans ∧ s'.loanIds = s.loanIds := by
  rw [setAdmin] at h
  split at h
  · exact absurd h (by simp)
  · injection h with h
    subst h
    exact ⟨rfl, rfl⟩

theorem transferOwnership_ok_elim {s s' : RegistryState}
    {sender newOwner : Address}
    (h : transferOwnership s sender newOwner = .ok s') :
    s'.loans = s.loans ∧ s'.loanIds = s.loanIds := by
  rw [transferOwnership] at h
  split at h
  · exact absurd h (by simp)
  · split at h
    · exact absurd h (by simp)
    · injection h with h
      subst h
      exact ⟨rfl, rfl⟩

/-- Well-formedness of registry storage: a stored loan records its own key
and a non-empty hash; absent keys hold the zero-initialised struct; and
`loanIds` enumerates exactly the stored keys, without duplicates. -/
def WF (s : RegistryState) : Prop :=
  (∀ id, loanExists s id = true →
      (s.loans id).loanId = id ∧ (s.loans id).loanHash ≠ "")
  ∧ (∀ id, loanExists s id = false → s.loans id = emptyLoan)
  ∧ s.loanIds.Nodup
  ∧ (∀ id, id ∈ s.loanIds ↔ loanExists s id = true)

theorem loanExists_congr {s s' : RegistryState} {id : String}
    (h : s'.loans id = s.loans id) : loanExists s' id = loanExists s id := by
  simp [loanExists, h]

theorem wf_init (deployer : Address) : WF (initState deployer) := by
  refine ⟨fun id hid => ?_, fun id _ => rfl, List.nodup_nil, fun id => ?_⟩
  · rw [loanExists_iff] at hid
    exact absurd rfl hid
  · simp [initState, loanExists, emptyLoan, bytesLen, utf8Len]

theorem wf_store {s s' : RegistryState} {sender : Address} {ts : Nat}
    {loanId loanHash : String} {borrower lender : Address} (hwf : WF s)
    (h : storeLoan s sender ts loanId loanHash borrower lender = .ok s') :
    WF s' := by
  obtain ⟨hkey, habsent, hnodup, hmem⟩ := hwf
  obtain ⟨-, hid, hhash, hnew, hl, hids, -, -⟩ := storeLoan_ok_elim h
  have hexold : loanExists s loanId = false := by
    simp [loanExists, hnew]
  have hexnew : ∀ id, id ≠ loanId → loanExists s' id = loanExists s id :=
    fun id hne => loanExists_congr (by simp [hl, hne])
  have hexid : loanExists s' loanId = true := by
    rw [loanExists_iff, hl]
    simpa using (bytesLen_eq_zero loanId).not.mp hid
  refine ⟨fun id hex => ?_, fun id hex => ?_, ?_, fun id => ?_⟩
  · by_cases hne : id = loanId
    · subst hne
      rw [hl]
      simpa using (bytesLen_eq_zero loanHash).not.mp hhash
    · rw [hl]
      simp only [hne, if_false]
      exact hkey id ((hexnew id hne) ▸ hex)
  · by_cases hne : id = loanId
    · subst hne
      rw [hexid] at hex
      exact absurd hex (by simp)
    · rw [hl]
      simp only [hne, if_false]
      exact habsent id ((hexnew id hne) ▸ hex)
  · rw [hids, List.nodup_append]
    refine ⟨hnodup, List.nodup_singleton _, fun a ha hb => ?_⟩
    rw [List.mem_singleton] at hb
    subst hb
    rw [hmem a, hexold] at ha
    exact absurd ha (by simp)
  · rw [hids, List.mem_append, List.mem_singleton]
    by_cases hne : id = loanId
    · subst hne
      simp [hexid]
    · simp only [hne, or_false]
      rw [hmem id, hexnew id hne]

theorem wf_repaid {s s' : RegistryState} {sender : Address} {loanId : String}
    (hwf : WF s) (h : markRepaid s sender loanId = .ok s') : WF s' := by
  obtain ⟨hkey, habsent, hnodup, hmem⟩ := hwf
  obtain ⟨-, hid, hrep, hl, hids, -, -⟩ := markRepaid_ok_elim h
  have hsame : ∀ id, (s'.loans id).loanId = (s.loans id).loanId := by
    intro id
    by_cases hne : id = loanId
    · subst hne
      simp [hl]
    · simp [hl, hne]
  have hex : ∀ id, loanExists s' id = loanExists s id := by
    intro id
    simp [loanExists, bytesLen, hsame id]
  refine ⟨fun id hx => ?_, fun id hx => ?_, hids ▸ hnodup, fun id => ?_⟩
  · obtain ⟨h1, h2⟩ := hkey id ((hex id) ▸ hx)
    by_cases hne : id = loanId
    · subst hne
      rw [hl]
      simp only [if_pos rfl]
      exact ⟨h1, h2⟩
    · rw [hl]
      simp only [hne, if_false]
      exact ⟨h1, h2⟩
  · have hxold : loanExists s id = false := (hex id) ▸ hx
    have hempty : s.loans id = emptyLoan := habsent id hxold
    by_cases hne : id = loanId
    · subst hne
      have h0 : bytesLen (s.loans id).loanId = 0 := by
        have hx0 := hxold
        simp only [loanExists, decide_eq_false_iff_not, Nat.not_lt,
          Nat.le_zero] at hx0
        exact hx0
      exact absurd h0 hid
    · rw [hl]
      simp only [hne, if_false]
      exact hempty
  · rw [hids, hmem id, hex id]

theorem wf_admin {s s' : RegistryState} {sender admin : Address}
    {isAdmin : Bool} (hwf : WF s) (h : setAdmin s sender admin isAdmin = .ok s') :
    WF s' := by
  obtain ⟨hkey, habsent, hnodup, hmem⟩ := hwf
  obtain ⟨hl, hids⟩ := setAdmin_ok_elim h
  have hex : ∀ id, loanExists s' id = loanExists s id :=
    fun id => loanExists_congr (by rw [hl])
  exact ⟨fun id hx => (hl ▸ hkey id ((hex id) ▸ hx)),
    fun id hx => (hl ▸ habsent id ((hex id) ▸ hx)),
    hids ▸ hnodup, fun id => (hids ▸ hmem id).trans (by rw [hex id])⟩

theorem wf_ownership {s s' : RegistryState} {sender newOwner : Address}
    (hwf : WF s) (h : transferOwnership s sender newOwner = .ok s') : WF s' := by
  obtain ⟨hkey, habsent, hnodup, hmem⟩ := hwf
  obtain ⟨hl, hids⟩ := transferOwnership_ok_elim h
  have hex : ∀ id, loanExists s' id = loanExists s id :=
    fun id => loanExists_congr (by rw [hl])
  exact ⟨fun id hx => (hl ▸ hkey id ((hex id) ▸ hx)),
    fun id hx => (hl ▸ habsent id ((hex id) ▸ hx)),
    hids ▸ hnodup, fun id => (hids ▸ hmem id).trans (by rw [hex id])⟩

theorem wf_step {s s' : RegistryState} (hwf : WF s) (h : Step s s') : WF s' := by
  cases h with
  | store => exact wf_store hwf (by assumption)
  | repaid => exact wf_repaid hwf (by assumption)
  | admin => exact wf_admin hwf (by assumption)
  | ownership => exact wf_ownership hwf (by assumption)

theorem reachable_wf {s : RegistryState} (hs : Reachable s) : WF s := by
  induction hs with
  | init deployer => exact wf_init deployer
  | step _ h ih => exact wf_step ih h

theorem statusOf_congr {s s' : RegistryState} {id : String}
    (h : s'.loans id = s.loans id) : statusOf s' id = statusOf s id := by
  simp [statusOf, loanExists, h]

theorem statusOf_ne_not_committed (s : RegistryState) (id : String) :
    statusOf s id ≠ .NOT_COMMITTED ↔ loanExists s id = true := by
  rw [statusOf]
  split
  · rename_i hfalse
    simp [hfalse]
  · rename_i hfalse
    have hb : loanExists s id = true := by
      cases h : loanExists s id
      · exact absurd h hfalse
      · rfl
    constructor
    · intro _
      exact hb
    · intro _
      split <;> simp

/-- Forward-only evolution of one record slot across one transaction:
its status rank never decreases, and a stored loan stays stored with all
fields except the `isRepaid` flag intact. -/
def PreservesLoan (s s' : RegistryState) (id : String) : Prop :=
  statusRank (statusOf s id) ≤ statusRank (statusOf s' id)
  ∧ (loanExists s id = true →
      loanExists s' id = true
      ∧ (s'.loans id).loanId = (s.loans id).loanId
      ∧ (s'.loans id).loanHash = (s.loans id).loanHash
      ∧ (s'.loans id).borrower = (s.loans id).borrower
      ∧ (s'.loans id).lender = (s.loans id).lender
      ∧ (s'.loans id).timestamp = (s.loans id).timestamp)

theorem preservesLoan_of_eq {s s' : RegistryState} {id : String}
    (h : s'.loans id = s.loans id) : PreservesLoan s s' id := by
  refine ⟨le_of_eq (by rw [statusOf_congr h]), fun hx => ?_⟩
  rw [loanExists_congr h]
  exact ⟨hx, by rw [h], by rw [h], by rw [h], by rw [h], by rw [h]⟩

theorem store_step_preserves {s s' : RegistryState} {sender : Address}
    {ts : Nat} {loanId loanHash : String} {borrower lender : Address}
    (h : storeLoan s sender ts loanId loanHash borrower lender = .ok s')
    (id : String) : PreservesLoan s s' id := by
  obtain ⟨-, -, -, hnew, hl, -, -, -⟩ := storeLoan_ok_elim h
  by_cases hne : id = loanId
  · subst hne
    have hexold : loanExists s id = false := by
      simp [loanExists, hnew]
    refine ⟨?_, fun hx => absurd (hexold ▸ hx) (by simp)⟩
    rw [statusOf]
    simp only [hexold]
    exact Nat.zero_le _
  · exact preservesLoan_of_eq (by simp [hl, hne])

theorem repaid_step_preserves {s s' : RegistryState} {sender : Address}
    {loanId : String} (h : markRepaid s sender loanId = .ok s')
    (id : String) : PreservesLoan s s' id := by
  obtain ⟨-, hid, hrep, hl, -, -, -⟩ := markRepaid_ok_elim h
  by_cases hne : id = loanId
  · subst hne
    have hexold : loanExists s id = true := by
      simp [loanExists, Nat.pos_iff_ne_zero, hid]
    have hl' : s'.loans id = { s.loans id with isRepaid := true } := by
      simp [hl]
    have hexnew : loanExists s' id = true := by
      rw [loanExists_iff, hl']
      rw [loanExists_iff] at hexold
      simpa using hexold
    refine ⟨?_, fun _ => ⟨hexnew, by rw [hl'], by rw [hl'], by rw [hl'],
      by rw [hl'], by rw [hl']⟩⟩
    rw [statusOf, statusOf]
    simp only [hexold, hexnew, hl', hrep]
    simp [statusRank]
  · exact preservesLoan_of_eq (by simp [hl, hne])

theorem admin_step_preserves {s s' : RegistryState} {sender admin : Address}
    {isAdmin : Bool} (h : setAdmin s sender admin isAdmin = .ok s')
    (id : String) : PreservesLoan s s' id :=
  preservesLoan_of_eq (by rw [(setAdmin_ok_elim h).1])

theorem ownership_step_preserves {s s' : RegistryState}
    {sender newOwner : Address} (h : transferOwnership s sender newOwner = .ok s')
    (id : String) : PreservesLoan s s' id :=
  preservesLoan_of_eq (by rw [(transferOwnership_ok_elim h).1])

theorem step_preserves {s s' : RegistryState} (h : Step s s') (id : String) :
    PreservesLoan s s' id := by
  cases h with
  | store => exact store_step_preserves (by assumption) id
  | repaid => exact repaid_step_preserves (by assumption) id
  | admin => exact admin_step_preserves (by assumption) id
  | ownership => exact ownership_step_preserves (by assumption) id

/-- A reachable registry where the demo loan has been marked repaid. -/
def repaidDemoState : RegistryState := applyMarkRepaid demoState 1 "LN-1"

theorem demoState_reachable : Reachable demoState :=
  Reachable.step (Reachable.init 1)
    (Step.store (initState 1) 1 100 "LN-1" "a1b2" 2 3 demoState rfl)

theorem repaidDemoState_reachable : Reachable repaidDemoState :=
  Reachable.step demoState_reachable
    (Step.repaid demoState 1 "LN-1" repaidDemoState rfl)

/-- C7 counterexample: in the reachable state where loan `LN-1` was
stored and then marked repaid, the record's digest (`loanHash`) and
commit timestamp are set (non-null) and the loan is stored, yet its
status is `FOLLOWUP_COMMITTED`, not `COMMITTED` — so "status is
`COMMITTED` if and only if digest, ledger ref and commit time are
non-null" fails in the right-to-left direction. -/
theorem committed_iff_nonnull_counterexample :
    Reachable repaidDemoState
    ∧ (repaidDemoState.loans "LN-1").loanHash ≠ ""
    ∧ (repaidDemoState.loans "LN-1").timestamp ≠ 0
    ∧ loanExists repaidDemoState "LN-1" = true
    ∧ statusOf repaidDemoState "LN-1" ≠ .COMMITTED :=
  ⟨repaidDemoState_reachable, by decide, by decide, by decide, by decide⟩

/-- C7 (amended): in every reachable registry state, a record's digest
(`loanHash`) is non-null exactly when its status is not `NOT_COMMITTED`
(that is, `COMMITTED` or `FOLLOWUP_COMMITTED`); the status is
`NOT_COMMITTED` exactly when the record slot is still zero-initialised;
and across every further successful transaction a stored record is never
deleted and only transitions forward along
`NOT_COMMITTED → COMMITTED → FOLLOWUP_COMMITTED`, with all fields other
than the repayment flag immutable. -/
theorem commitment_record_lifecycle (s : RegistryState) (hs : Reachable s) :
    (∀ id, statusOf s id ≠ .NOT_COMMITTED ↔ (s.loans id).loanHash ≠ "")
    ∧ (∀ id, statusOf s id = .NOT_COMMITTED ↔ s.loans id = emptyLoan)
    ∧ (∀ s', Step s s' → ∀ id, PreservesLoan s s' id) := by
  obtain ⟨hkey, habsent, -, -⟩ := reachable_wf hs
  refine ⟨fun id => ?_, fun id => ?_, fun s' hstep id => step_preserves hstep id⟩
  · rw [statusOf_ne_not_committed]
    constructor
    · intro hx
      exact (hkey id hx).2
    · intro hhash
      cases hx : loanExists s id
      · have : s.loans id = emptyLoan := habsent id hx
        rw [this] at hhash
        exact absurd rfl hhash
      · rfl
  · constructor
    · intro hnc
      have hx : loanExists s id = false := by
        cases hx : loanExists s id
        · rfl
        · rw [← statusOf_ne_not_committed] at hx
          exact absurd hnc hx
      exact habsent id hx
    · intro hempty
      have hx : loanExists s id = false := by
        rw [loanExists, hempty]
        simp [emptyLoan, bytesLen, utf8Len]
      simp [statusOf, hx]

/-- Witness for C7 (amended) at the reachable single-loan registry. -/
theorem commitment_record_lifecycle_witness :
    (statusOf demoState "LN-1" ≠ .NOT_COMMITTED ↔
      (demoState.loans "LN-1").loanHash ≠ "")
    ∧ (statusOf demoState "LN-2" = .NOT_COMMITTED ↔
      demoState.loans "LN-2" = emptyLoan) :=
  let T := commitment_record_lifecycle demoState demoState_reachable
  ⟨T.1 "LN-1", T.2.1 "LN-2"⟩

/-- C10: in every reachable registry state, `loanIds` lists each stored
loan's id exactly once and nothing else; hence `getLoanCount` equals the
number of stored loans and `getLoanIdByIndex` enumerates exactly the
stored ids. -/
theorem loanIds_enumeration (s : RegistryState) (hs : Reachable s) :
    s.loanIds.Nodup
    ∧ (∀ id, id ∈ s.loanIds ↔ loanExists s id = true)
    ∧ getLoanCount s = s.loanIds.length
    ∧ (∀ id, loanExists s id = true → s.loanIds.count id = 1)
    ∧ (∀ id, loanExists s id = false → s.loanIds.count id = 0)
    ∧ (∀ index (h : index < s.loanIds.length),
        getLoanIdByIndex s index = .ok (s.loanIds.get ⟨index, h⟩)) := by
  obtain ⟨-, -, hnodup, hmem⟩ := reachable_wf hs
  refine ⟨hnodup, hmem, rfl, fun id hx => ?_, fun id hx => ?_,
    fun index h => ?_⟩
  · exact List.count_eq_one_of_mem hnodup ((hmem id).mpr hx)
  · rw [List.count_eq_zero]
    intro hmem'
    rw [hmem id, hx] at hmem'
    exact absurd hmem' (by simp)
  · simp [getLoanIdByIndex, h]

/-- Witness for C10 at the reachable single-loan registry. -/
theorem loanIds_enumeration_witness :
    demoState.loanIds.Nodup
    ∧ ("LN-1" ∈ demoState.loanIds ↔ loanExists demoState "LN-1" = true)
    ∧ getLoanCount demoState = demoState.loanIds.length
    ∧ demoState.loanIds.count "LN-1" = 1 :=
  let T := loanIds_enumeration demoState demoState_reachable
  ⟨T.1, T.2.1 "LN-1", T.2.2.1, T.2.2.2.1 "LN-1" (by decide)⟩

/-- Result one blockchain node interaction can produce, as seen by a
Node.js script: a confirmed receipt, a transient transport failure
(connection refused, timeout), or a semantic rejection (reverted call,
unauthorized key, malformed payload). Both failure kinds surface in JS
as a thrown error whose message the script reports. -/
inductive NodeResponse where
  | confirmed (transactionHash : String) (blockNumber : Nat) (gasUsed : Nat)
  | transientError (message : String)
  | rejectedError (message : String)
  deriving Repr, DecidableEq

/-- The JSON object a transaction script prints on stdout or stderr:
either `success: true` with the receipt details, or `success: false`
with the error message. (The echoed input fields are not modelled.) -/
inductive ScriptOutput where
  | success (transactionHash : String) (blockNumber : Nat) (gasUsed : Nat)
  | failure (error : String)
  deriving Repr, DecidableEq

/-- The three environment variables each script reads; `none` models an
unset variable. -/
structure BlockchainConfig where
  privateKey : Option String
  rpcUrl : Option String
  contractAddress : Option String

/-- JS truthiness of an environment variable: unset and empty are falsy. -/
def envTruthy : Option String → Bool
  | none => false
  | some s => s != ""

/-- The configuration validation `if (!privateKey || !rpcUrl ||
!contractAddress)` shared by the three scripts. -/
def configOk (cfg : BlockchainConfig) : Bool :=
  envTruthy cfg.privateKey && envTruthy cfg.rpcUrl &&
    envTruthy cfg.contractAddress

/-- The `storeLoan` function of `storeLoan.js`: validates configuration,
then performs exactly one `contract.storeLoan(...)` transaction (the
`tx.wait()` confirmation round is folded into the single node response);
any thrown error is caught and reported as `success: false` with the
error's message. `node` maps attempt numbers to node responses; the
script only ever consults attempt `0`. -/
def storeLoanScript (cfg : BlockchainConfig) (node : Nat → NodeResponse)
    (loanId loanHash borrowerAddress lenderAddress : String) : ScriptOutput :=
  if configOk cfg = false then .failure "Missing blockchain configuration"
  else match node 0 with
    | .confirmed h b g => .success h b g
    | .transientError m => .failure m
    | .rejectedError m => .failure m

/-- The `markRepaid` function of `markRepaid.js`: same structure as
`storeLoan.js` with a single `contract.markRepaid(loanId)` transaction. -/
def markRepaidScript (cfg : BlockchainConfig) (node : Nat → NodeResponse)
    (loanId : String) : ScriptOutput :=
  if configOk cfg = false then .failure "Missing blockchain configuration"
  else match node 0 with
    | .confirmed h b g => .success h b g
    | .transientError m => .failure m
    | .rejectedError m => .failure m

/-- Stated from the spec's words, for comparison with the scripts above:
a ledger client applying bounded retry — up to `budget` attempts,
retrying only transient failures; semantic rejections propagate
immediately. Backoff delays do not change the final outcome and are not
modelled. `attempt` is the index of the next attempt. -/
def retryingClient : Nat → (Nat → NodeResponse) → Nat → ScriptOutput
  | 0, _, _ => .failure "retries exhausted"
  | budget + 1, node, attempt =>
    match node attempt with
    | .confirmed h b g => .success h b g
    | .rejectedError m => .failure m
    | .transientError m =>
      if budget = 0 then .failure m
      else retryingClient budget node (attempt + 1)

/-- A fully populated script configuration. -/
def fullConfig : BlockchainConfig :=
  { privateKey := some "0xkey", rpcUrl := some "http://127.0.0.1:8545",
    contractAddress := some "0xcontract" }

/-- A node that refuses the connection once, then accepts. -/
def transientThenOk : Nat → NodeResponse
  | 0 => .transientError "connection refused"
  | _ + 1 => .confirmed "0xabc" 7 21000

/-- C4 counterexample: against a node whose first response is a
transient connection failure and whose second response is a success,
`storeLoan.js` and `markRepaid.js` report failure — no second attempt is
ever made — whereas a client that retries transient failures (a budget
of two attempts suffices) succeeds. The claimed retry-with-backoff
behaviour is absent from the scripts. -/
theorem no_retry_counterexample :
    storeLoanScript fullConfig transientThenOk "LN-1" "a1b2" "0xB" "0xL"
      = .failure "connection refused"
    ∧ markRepaidScript fullConfig transientThenOk "LN-1"
      = .failure "connection refused"
    ∧ transientThenOk 1 = .confirmed "0xabc" 7 21000
    ∧ retryingClient 2 transientThenOk 0 = .success "0xabc" 7 21000 :=
  ⟨rfl, rfl, rfl, rfl⟩

/-- C4 (amended): each ledger script call performs exactly one attempt:
its outcome is a function of the node's first response alone, and every
failure — transient or semantic alike — propagates immediately as
`success: false` carrying the node's error message, with no retry and no
backoff. -/
theorem scripts_single_attempt (cfg : BlockchainConfig)
    (node node' : Nat → NodeResponse)
    (loanId loanHash ba la : String)
    (hfirst : node 0 = node' 0) :
    storeLoanScript cfg node loanId loanHash ba la
      = storeLoanScript cfg node' loanId loanHash ba la
    ∧ markRepaidScript cfg node loanId = markRepaidScript cfg node' loanId
    ∧ (∀ m, node 0 = .transientError m → configOk cfg = true →
        storeLoanScript cfg node loanId loanHash ba la = .failure m
        ∧ markRepaidScript cfg node loanId = .failure m)
    ∧ (∀ m, node 0 = .rejectedError m → configOk cfg = true →
        storeLoanScript cfg node loanId loanHash ba la = .failure m
        ∧ markRepaidScript cfg node loanId = .failure m) := by
  refine ⟨?_, ?_, fun m hm hcfg => ?_, fun m hm hcfg => ?_⟩
  · simp only [storeLoanScript, hfirst]
  · simp only [markRepaidScript, hfirst]
  · constructor <;> simp [storeLoanScript, markRepaidScript, hm, hcfg]
  · constructor <;> simp [storeLoanScript, markRepaidScript, hm, hcfg]

/-- Witness for C4 (amended) at the concrete transient-failure node. -/
theorem scripts_single_attempt_witness :
    storeLoanScript fullConfig transientThenOk "LN-1" "a1b2" "0xB" "0xL"
      = .failure "connection refused"
    ∧ markRepaidScript fullConfig transientThenOk "LN-1"
      = .failure "connection refused" :=
  (scripts_single_attempt fullConfig transientThenOk transientThenOk
    "LN-1" "a1b2" "0xB" "0xL" rfl).2.2.1 "connection refused" rfl rfl

/-- The spec's `CommitmentRecord` as persisted by the backend. -/
structure CommitmentRecord where
  digest : Option String
  ledger_ref : Option String
  committed_at : Option Nat
  status : CommitStatus
  deriving Repr, DecidableEq

/-- Modelled from the spec: the backend persistence step of `commit`,
which is not under `src/` (only the ledger scripts it drives are). On
script success it persists digest, ledger reference (the transaction
hash) and commit time together and sets `COMMITTED`; on script failure
it leaves the record untouched and surfaces `CommitFailedError` carrying
the script's error message as the underlying cause. -/
def commitRecord (rec : CommitmentRecord) (dg : String) (now : Nat) :
    ScriptOutput → CommitmentRecord × Except String Unit
  | .success txHash _ _ =>
    ({ digest := some dg, ledger_ref := some txHash,
       committed_at := some now, status := .COMMITTED }, .ok ())
  | .failure e => (rec, .error ("CommitFailedError: " ++ e))

/-- The commit pipeline: drive `storeLoan.js` against the node, then
persist the outcome. -/
def commitViaScript (rec : CommitmentRecord) (dg : String) (now : Nat)
    (cfg : BlockchainConfig) (node : Nat → NodeResponse)
    (loanId loanHash ba la : String) : CommitmentRecord × Except String Unit :=
  commitRecord rec dg now (storeLoanScript cfg node loanId loanHash ba la)

/-- C5: commit is atomic on failure: when the ledger publish script
fails, the commitment record is left exactly as it was — in particular
still `NOT_COMMITTED` with no digest — and the caller receives
`CommitFailedError` carrying the underlying cause; and for every
possible script outcome, the persisted record holds a digest exactly
when it holds a ledger reference (no partial persistence). -/
theorem commit_atomic_on_failure (rec : CommitmentRecord) (dg : String)
    (now : Nat) (cfg : BlockchainConfig) (node : Nat → NodeResponse)
    (loanId loanHash ba la : String) (e : String)
    (hnc : rec.status = .NOT_COMMITTED) (hd : rec.digest = none)
    (hr : rec.ledger_ref = none)
    (hfail : storeLoanScript cfg node loanId loanHash ba la = .failure e) :
    commitViaScript rec dg now cfg node loanId loanHash ba la
      = (rec, .error ("CommitFailedError: " ++ e))
    ∧ (commitViaScript rec dg now cfg node loanId loanHash ba la).1.status
      = .NOT_COMMITTED
    ∧ (commitViaScript rec dg now cfg node loanId loanHash ba la).1.digest
      = none
    ∧ (∀ out : ScriptOutput,
        (commitRecord rec dg now out).1.digest.isSome ↔
        (commitRecord rec dg now out).1.ledger_ref.isSome) := by
  rw [commitViaScript, hfail]
  refine ⟨rfl, hnc, hd, fun out => ?_⟩
  cases out with
  | success h b g => simp [commitRecord]
  | failure e' => simp [commitRecord, hd, hr]

/-- Witness for C5: a fresh record and a node refusing the connection. -/
theorem commit_atomic_on_failure_witness :
    commitViaScript ⟨none, none, none, .NOT_COMMITTED⟩ "a1b2" 100
      fullConfig transientThenOk "LN-1" "a1b2" "0xB" "0xL"
      = (⟨none, none, none, .NOT_COMMITTED⟩,
         .error ("CommitFailedError: " ++ "connection refused"))
    ∧ (commitViaScript ⟨none, none, none, .NOT_COMMITTED⟩ "a1b2" 100
        fullConfig transientThenOk "LN-1" "a1b2" "0xB" "0xL").1.status
      = .NOT_COMMITTED :=
  let T := commit_atomic_on_failure ⟨none, none, none, .NOT_COMMITTED⟩
    "a1b2" 100 fullConfig transientThenOk "LN-1" "a1b2" "0xB" "0xL"
    "connection refused" rfl rfl rfl rfl
  ⟨T.1, T.2.1⟩

/-- The parsed result of one `getLoan.js` invocation. -/
inductive FetchResult where
  | success (loan : Loan)
  | failure (error : String)
  deriving Repr, DecidableEq

/-- The `getLoan` function of `getLoan.js`: validates configuration,
then performs exactly one read-only `contract.getLoan(loanId)` call.
The node is either unreachable (`nodeState = .error m`, the RPC throws)
or serves the current registry storage, in which case the contract view
runs; its revert ("Loan does not exist") is thrown in JS and reported
the same way as a transport error. -/
def getLoanScript (cfg : BlockchainConfig)
    (nodeState : Except String RegistryState) (loanId : String) :
    FetchResult :=
  if configOk cfg = false then .failure "Missing blockchain configuration"
  else match nodeState with
    | .error m => .failure m
    | .ok reg =>
      match getLoan reg loanId with
      | .error m => .failure m
      | .ok loan => .success loan

/-- The verification verdicts of the spec. -/
inductive Verdict where
  | MATCH
  | MISMATCH
  | NOT_COMMITTED
  | NOT_FOUND_ON_LEDGER
  deriving Repr, DecidableEq

/-- Modelled from the spec: the backend verification endpoint is not
under `src/` (`admin-frontend/src/pages/KYC/KYC.jsx` shows its
two-valued `valid` verdict and its separate error path). Given the
stored commitment, the fetch outcome of `getLoan.js` and the digest
recomputed from the current record, it returns `NOT_COMMITTED` before
any commitment, `NOT_FOUND_ON_LEDGER` when the fetch failed, and
otherwise compares the recomputed digest byte-for-byte against the
ledger-stored `loanHash`. -/
def verify (rec : CommitmentRecord) (fetched : FetchResult)
    (recomputed : String) : Verdict :=
  if rec.status = .NOT_COMMITTED then .NOT_COMMITTED
  else match fetched with
    | .failure _ => .NOT_FOUND_ON_LEDGER
    | .success loan =>
      if recomputed = loan.loanHash then .MATCH else .MISMATCH

/-- The verify pipeline: fetch through `getLoan.js`, then compare. -/
def verifyViaScript (rec : CommitmentRecord) (cfg : BlockchainConfig)
    (nodeState : Except String RegistryState) (loanId recomputed : String) :
    Verdict :=
  verify rec (getLoanScript cfg nodeState loanId) recomputed

/-- C2: for a committed record, a successful fetch yields `MATCH` exactly
when the recomputed digest equals the ledger-stored digest byte-for-byte
and `MISMATCH` exactly otherwise; when the fetch fails the verdict is
`NOT_FOUND_ON_LEDGER` and never `MISMATCH`; and when the ledger node is
unreachable the full pipeline returns `NOT_FOUND_ON_LEDGER`. -/
theorem verify_verdicts (rec : CommitmentRecord) (fetched : FetchResult)
    (recomputed : String) (hc : rec.status ≠ .NOT_COMMITTED) :
    (∀ loan, fetched = .success loan →
      (verify rec fetched recomputed = .MATCH ↔ recomputed = loan.loanHash)
      ∧ (verify rec fetched recomputed = .MISMATCH ↔
          recomputed ≠ loan.loanHash))
    ∧ (∀ e, fetched = .failure e →
        verify rec fetched recomputed = .NOT_FOUND_ON_LEDGER
        ∧ verify rec fetched recomputed ≠ .MISMATCH)
    ∧ (∀ cfg m loanId,
        verifyViaScript rec cfg (.error m) loanId recomputed
          = .NOT_FOUND_ON_LEDGER) := by
  refine ⟨fun loan hl => ?_, fun e he => ?_, fun cfg m loanId => ?_⟩
  · subst hl
    by_cases heq : recomputed = loan.loanHash <;>
      simp [verify, hc, heq]
  · subst he
    simp [verify, hc]
  · rw [verifyViaScript, getLoanScript]
    cases hcfg : configOk cfg <;> simp [verify, hc]

/-- Witness for C2 at the demo loan: matching and mismatching digests,
and an unreachable node. -/
theorem verify_verdicts_witness :
    verify ⟨some "a1b2", some "0xabc", some 100, .COMMITTED⟩
      (.success (demoState.loans "LN-1")) "a1b2" = .MATCH
    ∧ verify ⟨some "a1b2", some "0xabc", some 100, .COMMITTED⟩
      (.failure "connection refused") "a1b2" = .NOT_FOUND_ON_LEDGER
    ∧ verifyViaScript ⟨some "a1b2", some "0xabc", some 100, .COMMITTED⟩
      fullConfig (.error "connection refused") "LN-1" "a1b2"
      = .NOT_FOUND_ON_LEDGER :=
  let T := verify_verdicts ⟨some "a1b2", some "0xabc", some 100, .COMMITTED⟩
    (.success (demoState.loans "LN-1")) "a1b2" (by decide)
  let U := verify_verdicts ⟨some "a1b2", some "0xabc", some 100, .COMMITTED⟩
    (.failure "connection refused") "a1b2" (by decide)
  ⟨(T.1 (demoState.loans "LN-1") rfl).1.mpr (by decide),
   (U.2.1 "connection refused" rfl).1,
   U.2.2 fullConfig "connection refused" "LN-1"⟩

/-- C8 counterexample: the verify fetch is `contract.getLoan(loanId)` —
a lookup of the current mapping entry under the record key — not a fetch
pinned by the commit-time ledger reference: after the follow-up
(`markRepaid`) transaction the fetched payload differs from the exact
payload of the committed entry (its `isRepaid` flag changed), though the
digest field happens to be unchanged. -/
theorem fetch_not_pinned_counterexample :
    repaidDemoState.loans "LN-1" ≠ demoState.loans "LN-1"
    ∧ getLoan demoState "LN-1" = .ok (demoState.loans "LN-1")
    ∧ getLoan repaidDemoState "LN-1" = .ok (repaidDemoState.loans "LN-1")
    ∧ (demoState.loans "LN-1").isRepaid = false
    ∧ (repaidDemoState.loans "LN-1").isRepaid = true
    ∧ (repaidDemoState.loans "LN-1").loanHash
      = (demoState.loans "LN-1").loanHash :=
  ⟨by decide, rfl, rfl, by decide, by decide, by decide⟩

theorem getLoan_of_exists {s : RegistryState} {id : String}
    (hex : loanExists s id = true) : getLoan s id = .ok (s.loans id) := by
  rw [loanExists] at hex
  rw [decide_eq_true_iff] at hex
  rw [getLoan]
  simp [Nat.pos_iff_ne_zero.mp hex]

theorem steps_preserve_exists {s s' : RegistryState} {id : String}
    (hsteps : Steps s s') (hex : loanExists s id = true) :
    loanExists s' id = true := by
  induction hsteps with
  | refl => exact hex
  | tail h hstep ih => exact ((step_preserves hstep id).2 ih).1

/-- C8 (amended): verify fetches the ledger payload by the record key —
`getLoan(loanId)` returns the current mapping entry, which a follow-up
commitment does alter — yet the digest compared is still the one fixed
at first commitment, because no transaction ever changes a stored
loan's `loanHash`. -/
theorem fetch_by_key_hash_stable (s s' : RegistryState) (id : String)
    (hsteps : Steps s s') (hex : loanExists s id = true) :
    getLoan s' id = .ok (s'.loans id)
    ∧ (s'.loans id).loanHash = (s.loans id).loanHash := by
  induction hsteps with
  | refl => exact ⟨getLoan_of_exists hex, rfl⟩
  | tail h hstep ih =>
    obtain ⟨-, hhash⟩ := ih
    have hext := steps_preserve_exists h hex
    obtain ⟨hex', -, hhash', -, -, -⟩ := (step_preserves hstep id).2 hext
    exact ⟨getLoan_of_exists hex', hhash'.trans hhash⟩

/-- Witness for C8 (amended): across the follow-up repayment
transaction, the fetched entry's digest equals the committed digest. -/
theorem fetch_by_key_hash_stable_witness :
    getLoan repaidDemoState "LN-1" = .ok (repaidDemoState.loans "LN-1")
    ∧ (repaidDemoState.loans "LN-1").loanHash
      = (demoState.loans "LN-1").loanHash :=
  fetch_by_key_hash_stable demoState repaidDemoState "LN-1"
    (Steps.tail (Steps.refl demoState)
      (Step.repaid demoState 1 "LN-1" repaidDemoState rfl))
    (by decide)

end LoanRegistry

namespace SHA256

/-- The modulus of 32-bit words. -/
def wmod : Nat := 4294967296

/-- Right rotation of a 32-bit word by `n`. -/
def rotr (n x : Nat) : Nat := ((x >>> n) ||| (x <<< (32 - n))) % wmod

def bigSigma0 (x : Nat) : Nat := (rotr 2 x) ^^^ (rotr 13 x) ^^^ (rotr 22 x)

def bigSigma1 (x : Nat) : Nat := (rotr 6 x) ^^^ (rotr 11 x) ^^^ (rotr 25 x)

def smallSigma0 (x : Nat) : Nat := (rotr 7 x) ^^^ (rotr 18 x) ^^^ (x >>> 3)

def smallSigma1 (x : Nat) : Nat := (rotr 17 x) ^^^ (rotr 19 x) ^^^ (x >>> 10)

def ch (x y z : Nat) : Nat := (x &&& y) ^^^ ((x ^^^ (wmod - 1)) &&& z)

def maj (x y z : Nat) : Nat := (x &&& y) ^^^ (x &&& z) ^^^ (y &&& z)

/-- The 64 round constants of FIPS 180-4, in decimal. -/
def K : List Nat :=
  [1116352408, 1899447441, 3049323471, 3921009573,
   961987163, 1508970993, 2453635748, 2870763221,
   3624381080, 310598401, 607225278, 1426881987,
   1925078388, 2162078206, 2614888103, 3248222580,
   3835390401, 4022224774, 264347078, 604807628,
   770255983, 1249150122, 1555081692, 1996064986,
   2554220882, 2821834349, 2952996808, 3210313671,
   3336571891, 3584528711, 113926993, 338241895,
   666307205, 773529912, 1294757372, 1396182291,
   1695183700, 1986661051, 2177026350, 2456956037,
   2730485921, 2820302411, 3259730800, 3345764771,
   3516065817, 3600352804, 4094571909, 275423344,
   430227734, 506948616, 659060556, 883997877,
   958139571, 1322822218, 1537002063, 1747873779,
   1955562222, 2024104815, 2227730452, 2361852424,
   2428436474, 2756734187, 3204031479, 3329325298]

/-- The initial hash value of FIPS 180-4, in decimal. -/
def initH : List Nat :=
  [1779033703, 3144134277, 1013904242, 2773480762,
   1359893119, 2600822924, 528734635, 1541459225]

/-- Big-endian byte decomposition of `n` into `k` bytes. -/
def beBytes : Nat → Nat → List Nat
  | _, 0 => []
  | n, k + 1 => beBytes (n / 256) k ++ [n % 256]

/-- Merkle–Damgård padding: append `0x80`, zero bytes up to 56 mod 64,
and the 64-bit big-endian bit length. -/
def padMessage (msg : List Nat) : List Nat :=
  let len := msg.length
  msg ++ [128] ++ List.replicate ((119 - len % 64) % 64) 0 ++
    beBytes (8 * len) 8

/-- Splits a byte list into 64-byte blocks; `fuel` bounds the recursion
(structural recursion so the definition reduces in the kernel). -/
def chunk64Aux : Nat → List Nat → List (List Nat)
  | _, [] => []
  | 0, _ :: _ => []
  | fuel + 1, c :: rest =>
    (c :: rest).take 64 :: chunk64Aux fuel ((c :: rest).drop 64)

def chunk64 (l : List Nat) : List (List Nat) := chunk64Aux l.length l

/-- Big-endian 32-bit words from bytes. -/
def bytesToWords : List Nat → List Nat
  | b0 :: b1 :: b2 :: b3 :: rest =>
    (((b0 * 256 + b1) * 256 + b2) * 256 + b3) :: bytesToWords rest
  | _ => []

/-- Extends 16 message-schedule words to 64. -/
def extendSchedule (w : Array Nat) : Array Nat :=
  (List.range 48).foldl (fun w i =>
    let t := i + 16
    w.push ((smallSigma1 (w.getD (t - 2) 0) + w.getD (t - 7) 0 +
             smallSigma0 (w.getD (t - 15) 0) + w.getD (t - 16) 0) % wmod)) w

/-- One compression-function application on a 64-byte block. -/
def compressBlock (h : List Nat) (block : List Nat) : List Nat :=
  let w := extendSchedule (bytesToWords block).toArray
  let final := (List.range 64).foldl (fun st i =>
    match st with
    | [a, b, c, d, e, f, g, hh] =>
      let t1 := (hh + bigSigma1 e + ch e f g + K.getD i 0 + w.getD i 0) % wmod
      let t2 := (bigSigma0 a + maj a b c) % wmod
      [(t1 + t2) % wmod, a, b, c, (d + t1) % wmod, e, f, g]
    | other => other) h
  match h, final with
  | [h0, h1, h2, h3, h4, h5, h6, h7], [a, b, c, d, e, f, g, hh] =>
    [(h0 + a) % wmod, (h1 + b) % wmod, (h2 + c) % wmod, (h3 + d) % wmod,
     (h4 + e) % wmod, (h5 + f) % wmod, (h6 + g) % wmod, (h7 + hh) % wmod]
  | _, _ => []

/-- SHA-256 digest of a byte list, as eight 32-bit words. -/
def sha256Words (msg : List Nat) : List Nat :=
  (chunk64 (padMessage msg)).foldl compressBlock initH

def hexChar (n : Nat) : Char :=
  if n < 10 then Char.ofNat (48 + n) else Char.ofNat (87 + n)

def toHexAux : Nat → Nat → List Char
  | _, 0 => []
  | w, k + 1 => toHexAux (w / 16) k ++ [hexChar (w % 16)]

def wordToHex (w : Nat) : String := String.mk (toHexAux w 8)

/-- SHA-256 digest of a byte list as the usual lowercase hex string
(64 characters, the form `hashlib.sha256(...).hexdigest()` returns). -/
def sha256Hex (msg : List Nat) : String :=
  String.join ((sha256Words msg).map wordToHex)

end SHA256

namespace LoanHash

open SHA256

/-- Bytes of an ASCII string; `json.dumps` with its default
`ensure_ascii=True` emits ASCII only, where code point = byte. -/
def strBytes (s : String) : List Nat := s.data.map Char.toNat

/-- Code-point lexicographic strict ordering on character lists — the
order by which Python compares strings, hence the order `sort_keys=True`
sorts dict keys. -/
def lexLt : List Char → List Char → Bool
  | [], [] => false
  | [], _ :: _ => true
  | _ :: _, [] => false
  | c :: cs, d :: ds =>
    if c.toNat < d.toNat then true
    else if d.toNat < c.toNat then false
    else lexLt cs ds

/-- Strict key comparison of two strings, Python style. -/
def keyLt (a b : String) : Bool := lexLt a.data b.data

/-- A Python value as `json.dumps` receives it in the documented
`loan_data` dict: a string (assumed free of characters needing JSON
escapes, as in the documented field values), an int, or a float with an
exact decimal representation — `pfloat m d` denotes `m / 10 ^ d` with
`d ≥ 1` fractional digits, which Python's shortest-repr float printing
renders with exactly those digits (for example `50000.0`, `12.5`). -/
inductive PyVal where
  | pstr (s : String)
  | pint (n : Int)
  | pfloat (m : Int) (d : Nat)
  deriving Repr, DecidableEq

/-- Decimal digits of `n` left-padded with zeros to width `d`. -/
def padZeros (s : String) (d : Nat) : String :=
  String.mk (List.replicate (d - s.length) '0') ++ s

/-- Python `repr` of the decimal float `m / 10 ^ d`. -/
def serFloat (m : Int) (d : Nat) : String :=
  (if m < 0 then "-" else "") ++ toString (m.natAbs / 10 ^ d) ++ "." ++
    padZeros (toString (m.natAbs % 10 ^ d)) d

/-- JSON serialization of one value, as `json.dumps` renders it. -/
def serVal : PyVal → String
  | .pstr s => "\"" ++ s ++ "\""
  | .pint n => toString n
  | .pfloat m d => serFloat m d

/-- Insertion of a field into a key-sorted field list: before the first
entry whose key is not smaller. -/
def insertField (p : String × PyVal) :
    List (String × PyVal) → List (String × PyVal)
  | [] => [p]
  | q :: qs => if keyLt q.1 p.1 then q :: insertField p qs else p :: q :: qs

/-- Key sort of the dict entries, as `sort_keys=True` performs it. -/
def sortFields : List (String × PyVal) → List (String × PyVal)
  | [] => []
  | p :: ps => insertField p (sortFields ps)

/-- Python's `json.dumps(loan_data, sort_keys=True)` on a dict with the
modelled values: entries sorted by key, rendered with the default
separators. -/
def jsonDumps (fields : List (String × PyVal)) : String :=
  "\x7b" ++ String.intercalate ", "
    ((sortFields fields).map
      (fun kv => "\"" ++ kv.1 ++ "\": " ++ serVal kv.2)) ++ "\x7d"

/-- The digest documented in `INTEGRATION_SUMMARY.md` (Hash Generation):
`sha256(json.dumps(loan_data, sort_keys=True))`, as a hex string. -/
def loanDigest (fields : List (String × PyVal)) : String :=
  sha256Hex (strBytes (jsonDumps fields))

/-- The rational number a numeric `PyVal` denotes. -/
def PyVal.toRat : PyVal → Option ℚ
  | .pstr _ => none
  | .pint n => some (n : ℚ)
  | .pfloat m d => some ((m : ℚ) / ((10 : ℚ) ^ d))

theorem lexLt_irrefl : ∀ l : List Char, lexLt l l = false
  | [] => rfl
  | c :: cs => by
    rw [lexLt]
    simp [lexLt_irrefl cs]

theorem lexLt_trans : ∀ (a b c : List Char),
    lexLt a b = true → lexLt b c = true → lexLt a c = true
  | [], [], _, hab, _ => by simp [lexLt] at hab
  | [], _ :: _, [], _, hbc => by simp [lexLt] at hbc
  | [], _ :: _, _ :: _, _, _ => rfl
  | _ :: _, [], _, hab, _ => by simp [lexLt] at hab
  | _ :: _, _ :: _, [], _, hbc => by simp [lexLt] at hbc
  | a :: as, b :: bs, c :: cs, hab, hbc => by
    rw [lexLt] at hab hbc ⊢
    split at hab
    · rename_i h1
      split at hbc
      · rename_i h2
        rw [if_pos (show a.toNat < c.toNat by omega)]
      · rename_i h2
        split at hbc
        · exact absurd hbc (by simp)
        · rename_i h3
          rw [if_pos (show a.toNat < c.toNat by omega)]
    · rename_i h1
      split at hab
      · exact absurd hab (by simp)
      · rename_i h2
        split at hbc
        · rename_i h3
          rw [if_pos (show a.toNat < c.toNat by omega)]
        · rename_i h3
          split at hbc
          · exact absurd hbc (by simp)
          · rename_i h4
            rw [if_neg (show ¬a.toNat < c.toNat by omega),
              if_neg (show ¬c.toNat < a.toNat by omega)]
            exact lexLt_trans as bs cs hab hbc

theorem lexLt_asymm {a b : List Char} (h : lexLt a b = true) :
    lexLt b a = false := by
  cases hx : lexLt b a
  · rfl
  · have hcon := lexLt_trans a b a h hx
    rw [lexLt_irrefl] at hcon
    exact absurd hcon (by simp)

theorem lexLt_total : ∀ (a b : List Char),
    lexLt a b = true ∨ lexLt b a = true ∨ a = b
  | [], [] => Or.inr (Or.inr rfl)
  | [], _ :: _ => Or.inl rfl
  | _ :: _, [] => Or.inr (Or.inl rfl)
  | a :: as, b :: bs => by
    by_cases h1 : a.toNat < b.toNat
    · left
      rw [lexLt, if_pos h1]
    · by_cases h2 : b.toNat < a.toNat
      · right
        left
        rw [lexLt, if_pos h2]
      · have hv : a.val = b.val := by
          have hn : a.val.toNat = b.val.toNat := by
            simp only [Char.toNat] at h1 h2
            omega
          exact UInt32.toNat.inj hn
        have hc : a = b := by
          cases a
          cases b
          simp_all
        subst hc
        rcases lexLt_total as bs with h | h | h
        · left
          rw [lexLt, if_neg h1, if_neg h1, h]
        · right
          left
          rw [lexLt, if_neg h1, if_neg h1, h]
        · right
          right
          rw [h]

theorem lexLt_false_antisymm {a b : List Char}
    (h1 : lexLt a b = false) (h2 : lexLt b a = false) : a = b := by
  rcases lexLt_total a b with h | h | h
  · rw [h] at h1
    exact absurd h1 (by simp)
  · rw [h] at h2
    exact absurd h2 (by simp)
  · exact h

theorem lexLt_false_trans {a b c : List Char}
    (h1 : lexLt b a = false) (h2 : lexLt c b = false) :
    lexLt c a = false := by
  cases hx : lexLt c a
  · rfl
  · rcases lexLt_total a b with hab | hba | heq
    · have hcb := lexLt_trans c a b hx hab
      rw [hcb] at h2
      exact absurd h2 (by simp)
    · rw [hba] at h1
      exact absurd h1 (by simp)
    · subst heq
      rw [hx] at h2
      exact absurd h2 (by simp)

/-- Sortedness relation of the key sort: the later entry's key is not
strictly smaller than the earlier one's. -/
def keyOrd (p q : String × PyVal) : Prop := keyLt q.1 p.1 = false

theorem insertField_perm (p : String × PyVal)
    (l : List (String × PyVal)) : (insertField p l).Perm (p :: l) := by
  induction l with
  | nil => exact List.Perm.refl _
  | cons q qs ih =>
    rw [insertField]
    split
    · exact (ih.cons q).trans (List.Perm.swap p q qs)
    · exact List.Perm.refl _

theorem sortFields_perm (l : List (String × PyVal)) :
    (sortFields l).Perm l := by
  induction l with
  | nil => exact List.Perm.refl _
  | cons p ps ih => exact (insertField_perm p (sortFields ps)).trans (ih.cons p)

theorem insertField_pairwise {p : String × PyVal}
    {l : List (String × PyVal)} (hl : l.Pairwise keyOrd) :
    (insertField p l).Pairwise keyOrd := by
  induction l with
  | nil => simp [insertField]
  | cons q qs ih =>
    rw [insertField]
    rcases List.pairwise_cons.mp hl with ⟨hq, hqs⟩
    split
    · rename_i hlt
      refine List.pairwise_cons.mpr ⟨fun b hb => ?_, ih hqs⟩
      rcases List.mem_cons.mp ((insertField_perm p qs).mem_iff.mp hb) with
        hbp | hb'
      · subst hbp
        exact lexLt_asymm hlt
      · exact hq b hb'
    · rename_i hge
      have hge' : keyLt q.1 p.1 = false := by
        cases hx : keyLt q.1 p.1
        · rfl
        · exact absurd hx hge
      refine List.pairwise_cons.mpr ⟨fun b hb => ?_, hl⟩
      rcases List.mem_cons.mp hb with hbq | hb'
      · subst hbq
        exact hge'
      · exact lexLt_false_trans hge' (hq b hb')

theorem sortFields_pairwise (l : List (String × PyVal)) :
    (sortFields l).Pairwise keyOrd := by
  induction l with
  | nil => exact List.Pairwise.nil
  | cons p ps ih => exact insertField_pairwise ih

theorem eq_of_perm_keySorted (l₁ : List (String × PyVal)) :
    ∀ l₂, l₁.Perm l₂ → l₁.Pairwise keyOrd → l₂.Pairwise keyOrd →
    (l₁.map Prod.fst).Nodup → l₁ = l₂ := by
  induction l₁ with
  | nil =>
    intro l₂ hp _ _ _
    exact (hp.symm.eq_nil).symm
  | cons a t₁ ih =>
    intro l₂ hp hs₁ hs₂ hnd
    cases l₂ with
    | nil => exact absurd hp.eq_nil (by simp)
    | cons b t₂ =>
      have hab : a = b := by
        rcases List.mem_cons.mp (hp.symm.subset (List.mem_cons_self b t₂))
          with hba | hb1
        · exact hba.symm
        · rcases List.mem_cons.mp (hp.subset (List.mem_cons_self a t₁))
            with hab | ha2
          · exact hab
          · have h1 : keyLt b.1 a.1 = false :=
              (List.pairwise_cons.mp hs₁).1 b hb1
            have h2 : keyLt a.1 b.1 = false :=
              (List.pairwise_cons.mp hs₂).1 a ha2
            have hkey : a.1 = b.1 := by
              have hd := lexLt_false_antisymm h2 h1
              cases heq : a.1
              cases heq2 : b.1
              simp_all [keyLt]
            have hmemk : a.1 ∈ t₁.map Prod.fst := by
              rw [hkey]
              exact List.mem_map_of_mem Prod.fst hb1
            rw [List.map_cons, List.nodup_cons] at hnd
            exact absurd hmemk hnd.1
      subst hab
      rw [List.map_cons, List.nodup_cons] at hnd
      rw [ih t₂ hp.cons_inv (List.pairwise_cons.mp hs₁).2
        (List.pairwise_cons.mp hs₂).2 hnd.2]

theorem sortFields_eq_of_perm {l₁ l₂ : List (String × PyVal)}
    (hp : l₁.Perm l₂) (hnd : (l₁.map Prod.fst).Nodup) :
    sortFields l₁ = sortFields l₂ := by
  have h1 : (sortFields l₁).Perm (sortFields l₂) :=
    (sortFields_perm l₁).trans (hp.trans (sortFields_perm l₂).symm)
  have hnd' : ((sortFields l₁).map Prod.fst).Nodup :=
    (((sortFields_perm l₁).map Prod.fst).nodup_iff).mpr hnd
  exact eq_of_perm_keySorted (sortFields l₁) (sortFields l₂) h1
    (sortFields_pairwise l₁) (sortFields_pairwise l₂) hnd'

/-- The example `loan_data` amount rendered as a Python int. -/
def intAmountFields : List (String × PyVal) :=
  [("loan_id", .pstr "LN-1"), ("amount", .pint 50000)]

/-- The same logical `loan_data`, the amount now a Python float. -/
def floatAmountFields : List (String × PyVal) :=
  [("loan_id", .pstr "LN-1"), ("amount", .pfloat 500000 1)]

set_option maxRecDepth 40000 in
/-- C3 counterexample: the int `50000` and the float `50000.0` denote
the same number, but the documented digest concatenates raw `json.dumps`
serializations, so the two serializations differ textually and their
SHA-256 digests differ — the digest is not invariant across distinct
upstream representations of the same logical value. -/
theorem digest_not_normalized_counterexample :
    PyVal.toRat (.pint 50000) = PyVal.toRat (.pfloat 500000 1)
    ∧ serVal (.pint 50000) ≠ serVal (.pfloat 500000 1)
    ∧ loanDigest intAmountFields ≠ loanDigest floatAmountFields :=
  ⟨by norm_num [PyVal.toRat], by decide, by decide⟩

/-- C3 (amended): the digest is deterministic in that it does not depend
on the dict's insertion order — `sort_keys=True` canonicalizes the key
order, so any two enumerations of the same key–value pairs (keys
distinct, as they are in a dict) digest identically, across repeated
calls and process restarts; but distinct numeric representations of the
same logical value are serialized raw and digest differently. -/
theorem digest_insertion_order_independent
    (l₁ l₂ : List (String × PyVal)) (hp : l₁.Perm l₂)
    (hnd : (l₁.map Prod.fst).Nodup) :
    loanDigest l₁ = loanDigest l₂ := by
  rw [loanDigest, loanDigest, jsonDumps, jsonDumps,
    sortFields_eq_of_perm hp hnd]

/-- Witness for C3 (amended): the two insertion orders of the example
dict digest identically. -/
theorem digest_insertion_order_independent_witness :
    loanDigest [("loan_id", PyVal.pstr "LN-1"), ("amount", PyVal.pint 50000)]
      = loanDigest [("amount", PyVal.pint 50000),
          ("loan_id", PyVal.pstr "LN-1")] :=
  digest_insertion_order_independent _ _
    (List.Perm.swap ("amount", PyVal.pint 50000)
      ("loan_id", PyVal.pstr "LN-1") [])
    (by decide)

end LoanHash
